import Mathlib

/-!
Verification development for the view-model transaction engine in
`packages/outline/src/OutlineView.js`.

Shallow embedding notes:
* The two module-level variables `activeViewModel` and `activeReadyOnlyMode`
  together with the heap of `ViewModel` objects and the (single) editor's
  fields `_textTransforms`, `_updateListeners`, `_viewModel` are collected in
  an explicit `EngineState` that every function threads.
* `ViewModel` objects are mutable and aliased (the local variable `viewModel`
  in `draftViewModel` aliases the object stored in `activeViewModel`), so view
  models live in a heap `vmHeap` keyed by `VMId`; an allocation counter
  `nextVMId` models `new ViewModel(...)`.
* A JS exception is modelled as an `Option Err` result component: a function
  that throws returns the state as of the throw together with `some e`, and
  callers that do not catch propagate it.  This matters because
  `callCallbackWithViewModelScope` has no try/finally: the two restoring
  assignments after `callbackFn(view)` are simply skipped when the callback
  throws.
* Callbacks, text transforms, change listeners, `createSelection` and
  `reconcileViewModel` are external code; they are taken as function
  parameters over the engine state.
* A ghost `Trace` of `Event`s records which passes / external functions an
  invocation of the engine runs, so that ordering claims can be stated.
  Traces produced by nested invocations made from inside an external callback
  are the callback's own business (its returned trace), so the trace returned
  by one engine call describes exactly that call.
* JS `Set` iteration order is insertion order; a set is modelled as a `List`
  (`Array.from` is then the identity).  A JS object used as a map
  (`nodeMap`) is an association list with unique keys; `delete` removes the
  key's entry.
* The node authority is external: the engine only asks `node.isAttached()`
  and `node instanceof TextNode`, so a node is modelled by those two
  observations.
-/

/-- Node identifiers (`NodeKey`): opaque string keys. -/
abbrev NodeKey := String

/-- Heap addresses of `ViewModel` objects. -/
abbrev VMId := Nat

/-- Identity of a registered text-transform function in `editor._textTransforms`. -/
abbrev TransformId := Nat

/-- Identity of a registered change listener in `editor._updateListeners`. -/
abbrev ListenerId := Nat

/-- A node as observed by this engine: `isAttached()` (reachability from root,
answered by the external node authority) and `instanceof TextNode`. -/
structure Node where
  attached : Bool
  isText : Bool
  deriving Repr, DecidableEq

/-- A selection value; the engine only reads its `isDirty` field. -/
structure Selection where
  isDirty : Bool
  deriving Repr, DecidableEq

/-- `NodeMapType = {[key: NodeKey]: Node}` as an association list. -/
abbrev NodeMapType := List (NodeKey × Node)

/-- Association-list lookup (`m[k]`, `undefined` mapped to `none`). -/
def alookup {α β : Type} [DecidableEq α] : List (α × β) → α → Option β
  | [], _ => none
  | p :: rest, a => if p.1 = a then some p.2 else alookup rest a

/-- `delete m[k]` on a JS object: the entry for `k` disappears. -/
def removeKey (m : NodeMapType) (k : NodeKey) : NodeMapType :=
  m.filter (fun p => !(p.1 == k))

/-- The data fields of a `ViewModel` object (class at OutlineView.js:192). -/
structure ViewModelData where
  root : Nat
  nodeMap : NodeMapType
  selection : Option Selection
  dirtyNodes : List NodeKey
  dirtySubTrees : List NodeKey
  isHistoric : Bool
  deriving Repr, DecidableEq

/-- `new ViewModel(root)`: empty node map, no selection, fresh empty dirty
sets, `isHistoric = false`. -/
def newViewModel (root : Nat) : ViewModelData :=
  { root := root, nodeMap := [], selection := none, dirtyNodes := [],
    dirtySubTrees := [], isHistoric := false }

/-- The editor fields this engine reads or writes: `_textTransforms`,
`_updateListeners` (both JS Sets, in insertion order) and the current
view-model slot `_viewModel` (returned by `editor.getCurrentViewModel()`). -/
structure EditorData where
  textTransforms : List TransformId
  updateListeners : List ListenerId
  viewModel : VMId
  deriving Repr, DecidableEq

/-- The whole mutable state the module touches: the two module-level scope
variables, the heap of `ViewModel` objects, the allocator, and the editor. -/
structure EngineState where
  activeViewModel : Option VMId
  activeReadyOnlyMode : Bool
  vmHeap : List (VMId × ViewModelData)
  nextVMId : VMId
  editor : EditorData
  deriving Repr, DecidableEq

/-- Dereference a view-model id. -/
def lookupVM (s : EngineState) (id : VMId) : Option ViewModelData :=
  alookup s.vmHeap id

/-- Dereference a view-model id, with a junk default (live JS references are
never dangling; theorems carry the relevant `lookupVM ... = some ...` facts). -/
def getVMD (s : EngineState) (id : VMId) : ViewModelData :=
  (lookupVM s id).getD (newViewModel 0)

/-- Mutate the `ViewModel` object at `id` in place. -/
def updVM (s : EngineState) (id : VMId) (f : ViewModelData → ViewModelData) :
    EngineState :=
  { s with vmHeap := s.vmHeap.map (fun p => if p.1 = id then (p.1, f p.2) else p) }

/-- Allocate a fresh `ViewModel` object (`new ViewModel(...)`). -/
def allocVM (s : EngineState) (d : ViewModelData) : EngineState × VMId :=
  ({ s with vmHeap := (s.nextVMId, d) :: s.vmHeap, nextVMId := s.nextVMId + 1 },
   s.nextVMId)

/-- The errors this engine can raise or see raised. -/
inductive Err where
  /-- `getActiveViewModel` with no active view model (OutlineView.js:32). -/
  | noActiveScope
  /-- `shouldErrorOnReadOnly`'s invariant failure (OutlineView.js:27). -/
  | readOnlyViolation
  /-- Any error thrown by external code (a callback, transform or listener). -/
  | userError
  deriving Repr, DecidableEq

/-- Ghost events recording what an engine invocation ran. -/
inductive Event where
  /-- `applyTextTransforms` was entered. -/
  | transformsPass
  /-- `garbageCollectDetachedNodes` was entered. -/
  | gcPass
  /-- `draftViewModel` evaluated `canUseExistingModel` (OutlineView.js:76). -/
  | acceptance
  /-- `textTransforms[i](node, view)`: transform `t` invoked on node `k`. -/
  | transformCall (t : TransformId) (k : NodeKey)
  /-- `listeners[i](viewModel)`: change listener `l` invoked. -/
  | listenerCall (l : ListenerId)
  deriving Repr, DecidableEq

abbrev Trace := List Event

/-- An external callback (`callbackFn`): runs on the state, returns the state
as of its completion or throw, its own ghost trace, and `some e` if it threw. -/
abbrev Cb := EngineState → EngineState × Trace × Option Err

/-- The registered text-transform functions, by identity.  A JS transform
receives the node object and the `view` contract; here it receives the node's
key (through which the current node is read) and the state. -/
abbrev TransformFns := TransformId → NodeKey → EngineState → EngineState

/-- The registered change listeners, by identity; a listener receives the
committed view model. -/
abbrev ListenerFns := ListenerId → VMId → EngineState → EngineState

/-- OutlineView.js:26-28 `shouldErrorOnReadOnly`:
`invariant(!activeReadyOnlyMode, 'Cannot use method in read-only mode.')`
(`invariant` throws when its condition is false). -/
def shouldErrorOnReadOnly (s : EngineState) : Option Err :=
  if s.activeReadyOnlyMode then some Err.readOnlyViolation else none

/-- OutlineView.js:30-39 `getActiveViewModel`: throws when `activeViewModel`
is `null`, otherwise returns it. -/
def getActiveViewModel (s : EngineState) : Except Err VMId :=
  match s.activeViewModel with
  | none => Except.error Err.noActiveScope
  | some id => Except.ok id

/-- OutlineView.js:42-44 `view.getRoot()`: `getActiveViewModel().root`. -/
def viewGetRoot (s : EngineState) : Except Err Nat :=
  match getActiveViewModel s with
  | Except.error e => Except.error e
  | Except.ok id => Except.ok (getVMD s id).root

/-- OutlineView.js:47-50 `view.setSelection(selection)`:
`getActiveViewModel().selection = selection`. -/
def viewSetSelection (sel : Selection) (s : EngineState) :
    Except Err EngineState :=
  match getActiveViewModel s with
  | Except.error e => Except.error e
  | Except.ok id =>
    Except.ok (updVM s id (fun d => { d with selection := some sel }))

/-- OutlineView.js:216-218 `viewModel.hasDirtyNodes()`: `dirtyNodes.size > 0`. -/
def hasDirtyNodes (s : EngineState) (id : VMId) : Bool :=
  !(getVMD s id).dirtyNodes.isEmpty

/-- OutlineView.js:186-190 `cloneViewModel`: `new ViewModel(current.root)`,
then `draft.nodeMap = {...current.nodeMap}` (shallow copy). -/
def cloneViewModel (s : EngineState) (current : VMId) : EngineState × VMId :=
  let q := allocVM s (newViewModel (getVMD s current).root)
  (updVM q.1 q.2 (fun d => { d with nodeMap := (getVMD s current).nodeMap }), q.2)

/-- OutlineView.js:88-95, the selection comparison inside
`viewModelHasDirtySelection`, on the two selection values read there. -/
def selectionIsDirtyCheck (selection currentSelection : Option Selection) : Bool :=
  if (currentSelection.isSome && selection.isNone) ||
      (currentSelection.isNone && selection.isSome) then
    true
  else
    match selection with
    | none => false
    | some sel => sel.isDirty

/-- OutlineView.js:82-96 `viewModelHasDirtySelection`: compares
`viewModel.selection` with `editor.getCurrentViewModel().selection`. -/
def viewModelHasDirtySelection (s : EngineState) (viewModel : VMId) : Bool :=
  selectionIsDirtyCheck (getVMD s viewModel).selection
    (getVMD s s.editor.viewModel).selection

/-- OutlineView.js:106-119 `callCallbackWithViewModelScope`: saves the two
module-level variables, installs the new pair, invokes the callback, and
restores.  There is no try/finally: when the callback throws, the two
restoring assignments (lines 117-118) are skipped and the error propagates. -/
def callCallbackWithViewModelScope (cb : Cb) (viewModel : VMId)
    (readOnly : Bool) (s : EngineState) : EngineState × Trace × Option Err :=
  let previousActiveViewModel := s.activeViewModel
  let previousReadyOnlyMode := s.activeReadyOnlyMode
  let r := cb { s with activeViewModel := some viewModel,
                       activeReadyOnlyMode := readOnly }
  match r.2.2 with
  | some err => (r.1, r.2.1, some err)
  | none => ({ r.1 with activeViewModel := previousActiveViewModel,
                        activeReadyOnlyMode := previousReadyOnlyMode },
             r.2.1, none)

/-- OutlineView.js:98-104 `readViewModel`: run the callback in a read-only
scope; no forking, no passes, no acceptance. -/
def readViewModel (cb : Cb) (viewModel : VMId) (s : EngineState) :
    EngineState × Trace × Option Err :=
  callCallbackWithViewModelScope cb viewModel true s

/-- Inner loop of `applyTextTransforms` (OutlineView.js:140-142): run every
transform of the pass-start sequence on the node, in registration order. -/
def runTextTransforms (T : TransformFns) (ts : List TransformId) (k : NodeKey)
    (s : EngineState) : EngineState × Trace :=
  match ts with
  | [] => (s, [])
  | t :: rest =>
    let s1 := T t k s
    let r := runTextTransforms T rest k s1
    (r.1, Event.transformCall t k :: r.2)

/-- Outer loop of `applyTextTransforms` (OutlineView.js:133-145): for each key
of the pass-start dirty sequence, re-read `nodeMap[nodeKey]` (the JS code
holds an alias of the `nodeMap` object, so in-place updates by transforms are
visible), and if the node exists, is attached and is a text node, run the
transforms on it. -/
def applyTextTransformsLoop (T : TransformFns) (dirtyNodes : List NodeKey)
    (textTransforms : List TransformId) (viewModel : VMId) (s : EngineState) :
    EngineState × Trace :=
  match dirtyNodes with
  | [] => (s, [])
  | nodeKey :: rest =>
    let node := alookup (getVMD s viewModel).nodeMap nodeKey
    let step : EngineState × Trace :=
      match node with
      | some n =>
        if n.attached then
          if n.isText then runTextTransforms T textTransforms nodeKey s
          else (s, [])
        else (s, [])
      | none => (s, [])
    let r := applyTextTransformsLoop T rest textTransforms viewModel step.1
    (r.1, step.2 ++ r.2)

/-- OutlineView.js:123-147 `applyTextTransforms`: if any transforms are
registered, snapshot `Array.from(viewModel.dirtyNodes)` and
`Array.from(editor._textTransforms)` and loop.  The ghost `transformsPass`
event marks the pass having run. -/
def applyTextTransforms (T : TransformFns) (s : EngineState)
    (viewModel : VMId) : EngineState × Trace :=
  let textTransformsSet := s.editor.textTransforms
  if textTransformsSet.length > 0 then
    let dirtyNodes := (getVMD s viewModel).dirtyNodes
    let r := applyTextTransformsLoop T dirtyNodes textTransformsSet viewModel s
    (r.1, Event.transformsPass :: r.2)
  else (s, [Event.transformsPass])

/-- One iteration of `garbageCollectDetachedNodes`'s loop body
(OutlineView.js:154-160): if the node is still in `nodeMap` and not attached,
`delete nodeMap[nodeKey]`. -/
def gcStep (viewModel : VMId) (s : EngineState) (nodeKey : NodeKey) :
    EngineState :=
  match alookup (getVMD s viewModel).nodeMap nodeKey with
  | some n =>
    if n.attached then s
    else updVM s viewModel (fun d => { d with nodeMap := removeKey d.nodeMap nodeKey })
  | none => s

/-- Loop of `garbageCollectDetachedNodes` (OutlineView.js:153-161): run
`gcStep` over the pass-start dirty sequence. -/
def gcLoop (dirtyNodes : List NodeKey) (viewModel : VMId) (s : EngineState) :
    EngineState :=
  match dirtyNodes with
  | [] => s
  | nodeKey :: rest => gcLoop rest viewModel (gcStep viewModel s nodeKey)

/-- OutlineView.js:149-162 `garbageCollectDetachedNodes`: snapshot
`Array.from(viewModel.dirtyNodes)` and run the deletion loop.  The ghost
`gcPass` event marks the pass having run. -/
def garbageCollectDetachedNodes (s : EngineState) (viewModel : VMId) :
    EngineState × Trace :=
  let dirtyNodes := (getVMD s viewModel).dirtyNodes
  (gcLoop dirtyNodes viewModel s, [Event.gcPass])

/-- OutlineView.js:57-62: reuse the active view model if there is one,
otherwise fork `currentViewModel`; then
`viewModel.selection = createSelection(viewModel, editor)` (line 62), with
`createSelection` external, passed as `csel`. -/
def draftSetup (csel : ViewModelData → EditorData → Option Selection)
    (currentViewModel : VMId) (s : EngineState) : EngineState × VMId :=
  let q : EngineState × VMId :=
    match s.activeViewModel with
    | some id => (s, id)
    | none => cloneViewModel s currentViewModel
  (updVM q.1 q.2 (fun d => { d with selection := csel (getVMD q.1 q.2) q.1.editor }),
   q.2)

/-- The anonymous callback at OutlineView.js:64-70: run `callbackFn`, then, if
the view model has dirty nodes, run the transform pipeline and the collector.
A throw from `callbackFn` propagates and skips both passes. -/
def draftWrapper (T : TransformFns) (cb : Cb) (viewModel : VMId) : Cb :=
  fun st =>
    let r := cb st
    match r.2.2 with
    | some err => (r.1, r.2.1, some err)
    | none =>
      if hasDirtyNodes r.1 viewModel then
        let p := applyTextTransforms T r.1 viewModel
        let q := garbageCollectDetachedNodes p.1 viewModel
        (q.1, r.2.1 ++ (p.2 ++ q.2), none)
      else (r.1, r.2.1, none)

/-- OutlineView.js:53-80 `draftViewModel`: setup (reuse or fork plus fresh
selection), run the wrapped callback inside a writable scope, then decide
`canUseExistingModel` and return `currentViewModel` or the draft.  A throw
from the callback propagates (the acceptance check never runs). -/
def draftViewModel (T : TransformFns)
    (csel : ViewModelData → EditorData → Option Selection) (cb : Cb)
    (currentViewModel : VMId) (s : EngineState) :
    EngineState × Trace × Except Err VMId :=
  let p := draftSetup csel currentViewModel s
  let r := callCallbackWithViewModelScope (draftWrapper T cb p.2) p.2 false p.1
  match r.2.2 with
  | some err => (r.1, r.2.1, Except.error err)
  | none =>
    let canUseExistingModel :=
      !hasDirtyNodes r.1 p.2 && !viewModelHasDirtySelection r.1 p.2
    (r.1, r.2.1 ++ [Event.acceptance],
     Except.ok (if canUseExistingModel then currentViewModel else p.2))

/-- Loop of `triggerOnChange` (OutlineView.js:181-183): invoke each listener
of the call-time copy, in order, on the evolving state. -/
def triggerLoop (L : ListenerFns) (ls : List ListenerId) (viewModel : VMId)
    (s : EngineState) : EngineState × Trace :=
  match ls with
  | [] => (s, [])
  | l :: rest =>
    let s1 := L l viewModel s
    let r := triggerLoop L rest viewModel s1
    (r.1, Event.listenerCall l :: r.2)

/-- OutlineView.js:176-184 `triggerOnChange`: take a fixed copy
`Array.from(editor._updateListeners)` and invoke each listener with the view
model. -/
def triggerOnChange (L : ListenerFns) (viewModel : VMId) (s : EngineState) :
    EngineState × Trace :=
  let listeners := s.editor.updateListeners
  triggerLoop L listeners viewModel s

/-- OutlineView.js:164-174 `updateViewModel`: install the view model as
active around the external `reconcileViewModel` call (`rec`), restore the
previous active view model, set `editor._viewModel`, then fan out to change
listeners. -/
def updateViewModel (rec : EngineState → EngineState) (L : ListenerFns)
    (viewModel : VMId) (s : EngineState) : EngineState × Trace :=
  let previousActiveViewModel := s.activeViewModel
  let s2 := rec { s with activeViewModel := some viewModel }
  let s3 := { s2 with activeViewModel := previousActiveViewModel }
  let s4 := { s3 with editor := { s3.editor with viewModel := viewModel } }
  triggerOnChange L viewModel s4

/-- Modelled from the spec: the node-mutation helpers (external to
OutlineView.js, in the node classes) mark the nodes they touch dirty in the
active snapshot; "mutations accumulate into the same in-flight snapshot".
`markDirty k` adds `k` to the active view model's dirty-node set (a JS `Set`
add: no duplicate, insertion order). -/
def markDirty (k : NodeKey) (s : EngineState) : EngineState :=
  match s.activeViewModel with
  | none => s
  | some id =>
    updVM s id (fun d =>
      if k ∈ d.dirtyNodes then d else { d with dirtyNodes := d.dirtyNodes ++ [k] })

/-- Modelled from the spec: a mutation helper "fails with `ReadOnlyViolation`
when the current scope's read-only flag is set.  Used by any helper that
mutates a node, independent of what mutation it performs."  The helper first
calls `shouldErrorOnReadOnly` (OutlineView.js:26-28) and only then performs
its mutation `m`. -/
def mutationHelper (m : EngineState → EngineState) : Cb :=
  fun s =>
    match shouldErrorOnReadOnly s with
    | some e => (s, [], some e)
    | none => (m s, [], none)

/-- Functions on view-model data that only touch the `nodeMap` field. -/
def NodeMapOnly (f : ViewModelData → ViewModelData) : Prop :=
  ∀ d, (f d).root = d.root ∧ (f d).selection = d.selection ∧
    (f d).dirtyNodes = d.dirtyNodes ∧ (f d).dirtySubTrees = d.dirtySubTrees ∧
    (f d).isHistoric = d.isHistoric

/-- A node's eligibility for the transform pipeline, as the loop tests it:
still resolvable in `nodeMap`, attached, and a text node. -/
def eligibleNode (d : ViewModelData) (k : NodeKey) : Bool :=
  match alookup d.nodeMap k with
  | some n => n.attached && n.isText
  | none => false

/-- The visit sequence the spec describes for one transform pass: iterate the
pass-start dirty sequence; for each node that is (at its visit) resolvable,
attached and a text node, invoke every registered transform in registration
order. -/
def specTransformVisits (ts : List TransformId) (d : ViewModelData) :
    List NodeKey → Trace
  | [] => []
  | k :: rest =>
    (if eligibleNode d k then ts.map (fun t => Event.transformCall t k) else []) ++
      specTransformVisits ts d rest

/-! ### Concrete fixtures used by witnesses -/

/-- A concrete baseline state: no active scope, one view model (id 0) that is
also the editor's current one, no registered transforms or listeners. -/
def sInit : EngineState :=
  { activeViewModel := none, activeReadyOnlyMode := false,
    vmHeap := [(0, newViewModel 0)], nextVMId := 1,
    editor := { textTransforms := [], updateListeners := [], viewModel := 0 } }

/-- A callback that does nothing and returns normally. -/
def cb0 : Cb := fun st => (st, [], none)

/-- A `createSelection` stand-in that produces no selection. -/
def csel0 : ViewModelData → EditorData → Option Selection := fun _ _ => none

/-- A transform family that does nothing. -/
def T0 : TransformFns := fun _ _ st => st

/-- An attached text node. -/
def nA : Node := { attached := true, isText := true }

/-- A detached non-text node. -/
def nB : Node := { attached := false, isText := false }

/-- A view model with one attached dirty node "a", one detached dirty node
"b", and one detached non-dirty node "c". -/
def dGc : ViewModelData :=
  { root := 0, nodeMap := [("a", nA), ("b", nB), ("c", nB)], selection := none,
    dirtyNodes := ["a", "b"], dirtySubTrees := [], isHistoric := false }

/-- A state holding `dGc` at id 5. -/
def sGc : EngineState :=
  { activeViewModel := none, activeReadyOnlyMode := false,
    vmHeap := [(5, dGc)], nextVMId := 6,
    editor := { textTransforms := [], updateListeners := [], viewModel := 5 } }

/-- A view model with an eligible dirty text node "a", a detached dirty node
"b", and a dirty identifier "z" with no `nodeMap` entry. -/
def dTr : ViewModelData :=
  { root := 0, nodeMap := [("a", nA), ("b", nB)], selection := none,
    dirtyNodes := ["a", "b", "z"], dirtySubTrees := [], isHistoric := false }

/-- A state holding `dTr` at id 2, with two registered transforms. -/
def sTr : EngineState :=
  { activeViewModel := none, activeReadyOnlyMode := false,
    vmHeap := [(2, dTr)], nextVMId := 3,
    editor := { textTransforms := [3, 7], updateListeners := [], viewModel := 2 } }

/-- Selection dirtiness as the claim words it: one side has a selection while
the other has none, or both have one and the new selection reports
`isDirty`. -/
def specSelectionDirty (newSel curSel : Option Selection) : Prop :=
  (curSel.isSome = true ∧ newSel = none) ∨
    (curSel = none ∧ newSel.isSome = true) ∨
    (∃ ns, newSel = some ns ∧ curSel.isSome = true ∧ ns.isDirty = true)

/-- The inner (nested) mutation callback of the reentrancy scenario: marks
node `b` dirty through the ambient helpers and returns. -/
def cbInner (b : NodeKey) : Cb := fun st => (markDirty b st, [], none)

/-- The outer mutation callback of the reentrancy scenario: marks node `a`
dirty, then makes a nested `draftViewModel` call whose callback marks `b`. -/
def cbOuter (T : TransformFns)
    (csel : ViewModelData → EditorData → Option Selection) (a b : NodeKey) :
    Cb :=
  fun st => ((draftViewModel T csel (cbInner b) 0 (markDirty a st)).1, [], none)

/-! ### Basic lemmas about the heap and the association-list operations -/

theorem alookup_map_if {α β : Type} [DecidableEq α] (l : List (α × β))
    (id j : α) (f : β → β) :
    alookup (l.map fun p => if p.1 = id then (p.1, f p.2) else p) j =
      if j = id then (alookup l j).map f else alookup l j := by
  induction l with
  | nil => simp [alookup]
  | cons p rest ih =>
    simp only [List.map_cons]
    by_cases h1 : p.1 = id
    · by_cases h3 : j = id
      · subst h3
        simp [alookup, h1, ih]
      · have h2 : ¬p.1 = j := fun hh => h3 (hh.symm.trans h1)
        have h4 : ¬id = j := fun hh => h3 hh.symm
        simp [alookup, h1, h2, ih, h3, h4]
    · by_cases h2 : p.1 = j
      · have h3 : ¬j = id := fun hh => h1 (h2.trans hh)
        simp [alookup, h1, h2, h3]
      · simp [alookup, h1, h2, ih]

theorem alookup_removeKey (m : NodeMapType) (k j : NodeKey) :
    alookup (removeKey m k) j = if j = k then none else alookup m j := by
  induction m with
  | nil => simp [removeKey, alookup]
  | cons p rest ih =>
    simp only [removeKey, List.filter_cons] at *
    by_cases h1 : p.1 = k
    · rw [show (!(p.1 == k)) = false by simp [h1]]
      simp only [Bool.false_eq_true, if_false]
      rw [ih]
      by_cases h3 : j = k
      · simp [h3]
      · have h2 : ¬p.1 = j := fun hh => h3 (hh.symm.trans h1)
        simp [alookup, h2, h3]
    · rw [show (!(p.1 == k)) = true by simp [h1]]
      simp only [if_true]
      by_cases h2 : p.1 = j
      · have h3 : ¬j = k := fun hh => h1 (h2.trans hh)
        simp [alookup, h2, h3]
      · simp [alookup, h2, ih]

@[simp] theorem updVM_activeViewModel (s : EngineState) (id : VMId)
    (f : ViewModelData → ViewModelData) :
    (updVM s id f).activeViewModel = s.activeViewModel := rfl

@[simp] theorem updVM_activeReadyOnlyMode (s : EngineState) (id : VMId)
    (f : ViewModelData → ViewModelData) :
    (updVM s id f).activeReadyOnlyMode = s.activeReadyOnlyMode := rfl

@[simp] theorem updVM_nextVMId (s : EngineState) (id : VMId)
    (f : ViewModelData → ViewModelData) :
    (updVM s id f).nextVMId = s.nextVMId := rfl

@[simp] theorem updVM_editor (s : EngineState) (id : VMId)
    (f : ViewModelData → ViewModelData) :
    (updVM s id f).editor = s.editor := rfl

theorem lookupVM_updVM (s : EngineState) (id j : VMId)
    (f : ViewModelData → ViewModelData) :
    lookupVM (updVM s id f) j =
      if j = id then (lookupVM s j).map f else lookupVM s j := by
  simp [lookupVM, updVM, alookup_map_if]

theorem getVMD_updVM_same (s : EngineState) (id : VMId)
    (f : ViewModelData → ViewModelData) (d : ViewModelData)
    (h : lookupVM s id = some d) :
    getVMD (updVM s id f) id = f d := by
  simp [getVMD, lookupVM_updVM, h]

theorem getVMD_updVM_other (s : EngineState) (id j : VMId)
    (f : ViewModelData → ViewModelData) (h : j ≠ id) :
    getVMD (updVM s id f) j = getVMD s j := by
  simp [getVMD, lookupVM_updVM, h]

theorem getVMD_updVM_nodeMapOnly_dirtyNodes (s : EngineState) (id j : VMId)
    (f : ViewModelData → ViewModelData) (hf : NodeMapOnly f) :
    (getVMD (updVM s id f) j).dirtyNodes = (getVMD s j).dirtyNodes := by
  by_cases h : j = id
  · subst h
    cases hd : lookupVM s j with
    | none => simp [getVMD, lookupVM_updVM, hd]
    | some d => simp [getVMD, lookupVM_updVM, hd, (hf d).2.2.1]
  · simp [getVMD_updVM_other s id j f h]

/-! ### Lemmas about the collector loop -/

theorem gcStep_shape (vm : VMId) (s : EngineState) (k : NodeKey) :
    gcStep vm s k = s ∨
      ∃ f, NodeMapOnly f ∧ gcStep vm s k = updVM s vm f := by
  unfold gcStep
  cases alookup (getVMD s vm).nodeMap k with
  | none => exact Or.inl rfl
  | some n =>
    by_cases h : n.attached
    · simp [h]
    · refine Or.inr ⟨fun d => { d with nodeMap := removeKey d.nodeMap k }, ?_, by simp [h]⟩
      intro d; exact ⟨rfl, rfl, rfl, rfl, rfl⟩

theorem gcStep_activeViewModel (vm : VMId) (s : EngineState) (k : NodeKey) :
    (gcStep vm s k).activeViewModel = s.activeViewModel := by
  rcases gcStep_shape vm s k with h | ⟨f, _, h⟩ <;> simp [h]

theorem gcStep_activeReadyOnlyMode (vm : VMId) (s : EngineState) (k : NodeKey) :
    (gcStep vm s k).activeReadyOnlyMode = s.activeReadyOnlyMode := by
  rcases gcStep_shape vm s k with h | ⟨f, _, h⟩ <;> simp [h]

theorem gcStep_nextVMId (vm : VMId) (s : EngineState) (k : NodeKey) :
    (gcStep vm s k).nextVMId = s.nextVMId := by
  rcases gcStep_shape vm s k with h | ⟨f, _, h⟩ <;> simp [h]

theorem gcStep_editor (vm : VMId) (s : EngineState) (k : NodeKey) :
    (gcStep vm s k).editor = s.editor := by
  rcases gcStep_shape vm s k with h | ⟨f, _, h⟩ <;> simp [h]

theorem gcStep_dirtyNodes (vm : VMId) (s : EngineState) (k : NodeKey) (j : VMId) :
    (getVMD (gcStep vm s k) j).dirtyNodes = (getVMD s j).dirtyNodes := by
  rcases gcStep_shape vm s k with h | ⟨f, hf, h⟩
  · simp [h]
  · rw [h]; exact getVMD_updVM_nodeMapOnly_dirtyNodes s vm j f hf

theorem gcLoop_activeViewModel (dirty : List NodeKey) (vm : VMId) :
    ∀ s : EngineState, (gcLoop dirty vm s).activeViewModel = s.activeViewModel := by
  induction dirty with
  | nil => intro s; rfl
  | cons k rest ih =>
    intro s
    simp only [gcLoop]
    rw [ih, gcStep_activeViewModel]

theorem gcLoop_activeReadyOnlyMode (dirty : List NodeKey) (vm : VMId) :
    ∀ s : EngineState,
      (gcLoop dirty vm s).activeReadyOnlyMode = s.activeReadyOnlyMode := by
  induction dirty with
  | nil => intro s; rfl
  | cons k rest ih =>
    intro s
    simp only [gcLoop]
    rw [ih, gcStep_activeReadyOnlyMode]

theorem gcLoop_nextVMId (dirty : List NodeKey) (vm : VMId) :
    ∀ s : EngineState, (gcLoop dirty vm s).nextVMId = s.nextVMId := by
  induction dirty with
  | nil => intro s; rfl
  | cons k rest ih =>
    intro s
    simp only [gcLoop]
    rw [ih, gcStep_nextVMId]

theorem gcLoop_editor (dirty : List NodeKey) (vm : VMId) :
    ∀ s : EngineState, (gcLoop dirty vm s).editor = s.editor := by
  induction dirty with
  | nil => intro s; rfl
  | cons k rest ih =>
    intro s
    simp only [gcLoop]
    rw [ih, gcStep_editor]

theorem gcLoop_dirtyNodes (dirty : List NodeKey) (vm : VMId) (j : VMId) :
    ∀ s : EngineState,
      (getVMD (gcLoop dirty vm s) j).dirtyNodes = (getVMD s j).dirtyNodes := by
  induction dirty with
  | nil => intro s; rfl
  | cons k rest ih =>
    intro s
    simp only [gcLoop]
    rw [ih, gcStep_dirtyNodes]

theorem gcStep_lookup_nodeMap (vm : VMId) (s : EngineState) (k0 k : NodeKey) :
    alookup (getVMD (gcStep vm s k0) vm).nodeMap k =
      match alookup (getVMD s vm).nodeMap k0 with
      | some n =>
        if n.attached then alookup (getVMD s vm).nodeMap k
        else if k = k0 then none else alookup (getVMD s vm).nodeMap k
      | none => alookup (getVMD s vm).nodeMap k := by
  unfold gcStep
  cases h : alookup (getVMD s vm).nodeMap k0 with
  | none => simp
  | some n =>
    cases ha : n.attached with
    | true => simp [ha]
    | false =>
      simp only [ha, Bool.false_eq_true, if_false]
      cases hvm : lookupVM s vm with
      | none =>
        exfalso
        have hg : getVMD s vm = newViewModel 0 := by simp [getVMD, hvm]
        rw [hg] at h
        simp [newViewModel, alookup] at h
      | some d =>
        have hg : getVMD s vm = d := by simp [getVMD, hvm]
        rw [getVMD_updVM_same s vm _ d hvm]
        simp [hg, alookup_removeKey]

theorem gcLoop_lookup_nodeMap (dirty : List NodeKey) (vm : VMId) :
    ∀ (s : EngineState) (k : NodeKey),
      alookup (getVMD (gcLoop dirty vm s) vm).nodeMap k =
        match alookup (getVMD s vm).nodeMap k with
        | none => none
        | some n => if k ∈ dirty ∧ n.attached = false then none else some n := by
  induction dirty with
  | nil =>
    intro s k
    cases h : alookup (getVMD s vm).nodeMap k <;> simp [gcLoop, h]
  | cons k0 rest ih =>
    intro s k
    simp only [gcLoop]
    rw [ih (gcStep vm s k0) k, gcStep_lookup_nodeMap]
    by_cases hk : k = k0
    · subst hk
      cases h0 : alookup (getVMD s vm).nodeMap k with
      | none => simp [h0]
      | some n0 => cases ha : n0.attached <;> simp [h0, ha]
    · cases h0 : alookup (getVMD s vm).nodeMap k0 with
      | none =>
        cases h : alookup (getVMD s vm).nodeMap k <;> simp [h0, h, hk]
      | some n0 =>
        cases ha : n0.attached <;>
          cases h : alookup (getVMD s vm).nodeMap k <;> simp [h0, ha, h, hk]

/-! ### Lemmas about the scope guard and the transaction runner -/

theorem scope_ok_restores (cb : Cb) (vm : VMId) (ro : Bool) (s : EngineState)
    (h : (callCallbackWithViewModelScope cb vm ro s).2.2 = none) :
    (callCallbackWithViewModelScope cb vm ro s).1.activeViewModel =
        s.activeViewModel ∧
      (callCallbackWithViewModelScope cb vm ro s).1.activeReadyOnlyMode =
        s.activeReadyOnlyMode := by
  simp only [callCallbackWithViewModelScope] at h ⊢
  cases he : (cb { s with activeViewModel := some vm,
                          activeReadyOnlyMode := ro }).2.2 with
  | some e => simp [he] at h
  | none => simp [he]

theorem scope_trace (cb : Cb) (vm : VMId) (ro : Bool) (s : EngineState) :
    (callCallbackWithViewModelScope cb vm ro s).2.1 =
      (cb { s with activeViewModel := some vm,
                   activeReadyOnlyMode := ro }).2.1 := by
  simp only [callCallbackWithViewModelScope]
  cases he : (cb { s with activeViewModel := some vm,
                          activeReadyOnlyMode := ro }).2.2 <;> simp [he]

theorem runTextTransforms_trace (T : TransformFns) (ts : List TransformId)
    (k : NodeKey) : ∀ s : EngineState,
    (runTextTransforms T ts k s).2 = ts.map (fun t => Event.transformCall t k) := by
  induction ts with
  | nil => intro s; rfl
  | cons t rest ih => intro s; simp [runTextTransforms, ih]

theorem runTextTransforms_state_const (T : TransformFns)
    (hT : ∀ t k st, T t k st = st) (ts : List TransformId) (k : NodeKey) :
    ∀ s : EngineState, (runTextTransforms T ts k s).1 = s := by
  induction ts with
  | nil => intro s; rfl
  | cons t rest ih => intro s; simp [runTextTransforms, hT, ih]

theorem applyTextTransformsLoop_calls (T : TransformFns)
    (dirty : List NodeKey) (ts : List TransformId) (vm : VMId) :
    ∀ s : EngineState, ∀ e ∈ (applyTextTransformsLoop T dirty ts vm s).2,
      ∃ t k, e = Event.transformCall t k ∧ t ∈ ts ∧ k ∈ dirty := by
  induction dirty with
  | nil => intro s e he; simp [applyTextTransformsLoop] at he
  | cons k0 rest ih =>
    intro s e he
    simp only [applyTextTransformsLoop, List.mem_append] at he
    rcases he with he | he
    · rcases hn : alookup (getVMD s vm).nodeMap k0 with _ | n
      · simp [hn] at he
      · cases ha : n.attached with
        | false => simp [hn, ha] at he
        | true =>
          cases ht : n.isText with
          | false => simp [hn, ha, ht] at he
          | true =>
            simp only [hn, ha, ht, if_true, runTextTransforms_trace,
              List.mem_map] at he
            rcases he with ⟨t, htm, rfl⟩
            exact ⟨t, k0, rfl, htm, List.mem_cons_self k0 rest⟩
    · rcases ih _ e he with ⟨t, k, rfl, htm, hkm⟩
      exact ⟨t, k, rfl, htm, List.mem_cons_of_mem k0 hkm⟩

theorem applyTextTransformsLoop_const (T : TransformFns)
    (hT : ∀ t k st, T t k st = st) (ts : List TransformId) (vm : VMId) :
    ∀ (dirty : List NodeKey) (s : EngineState),
      (applyTextTransformsLoop T dirty ts vm s).1 = s ∧
        (applyTextTransformsLoop T dirty ts vm s).2 =
          specTransformVisits ts (getVMD s vm) dirty := by
  intro dirty
  induction dirty with
  | nil => intro s; exact ⟨rfl, rfl⟩
  | cons k0 rest ih =>
    intro s
    simp only [applyTextTransformsLoop, specTransformVisits]
    rcases hn : alookup (getVMD s vm).nodeMap k0 with _ | n
    · simpa [eligibleNode, hn] using ih s
    · cases ha : n.attached with
      | false => simpa [eligibleNode, hn, ha] using ih s
      | true =>
        cases ht : n.isText with
        | false => simpa [eligibleNode, hn, ha, ht] using ih s
        | true =>
          have hst := runTextTransforms_state_const T hT ts k0 s
          have htr := runTextTransforms_trace T ts k0 s
          simp only [eligibleNode, hn, ha, ht, if_true, hst, htr]
          simpa using ih s

theorem specTransformVisits_nil (d : ViewModelData) :
    ∀ dirty : List NodeKey, specTransformVisits [] d dirty = [] := by
  intro dirty
  induction dirty with
  | nil => rfl
  | cons k rest ih => simp [specTransformVisits, ih]

theorem applyTextTransforms_trace_shape (T : TransformFns) (s : EngineState)
    (vm : VMId) :
    ∃ tl, (applyTextTransforms T s vm).2 = Event.transformsPass :: tl ∧
      ∀ e ∈ tl, ∃ t k, e = Event.transformCall t k ∧
        t ∈ s.editor.textTransforms ∧ k ∈ (getVMD s vm).dirtyNodes := by
  unfold applyTextTransforms
  by_cases h : s.editor.textTransforms.length > 0
  · simp only [h, if_true]
    exact ⟨_, rfl, fun e he =>
      applyTextTransformsLoop_calls T (getVMD s vm).dirtyNodes
        s.editor.textTransforms vm s e he⟩
  · simp only [h, if_false]
    exact ⟨[], rfl, by simp⟩

theorem applyTextTransforms_const (T : TransformFns)
    (hT : ∀ t k st, T t k st = st) (s : EngineState) (vm : VMId) :
    (applyTextTransforms T s vm).1 = s ∧
      (applyTextTransforms T s vm).2 =
        Event.transformsPass ::
          specTransformVisits s.editor.textTransforms (getVMD s vm)
            (getVMD s vm).dirtyNodes := by
  unfold applyTextTransforms
  by_cases h : s.editor.textTransforms.length > 0
  · have hc := applyTextTransformsLoop_const T hT s.editor.textTransforms vm
      (getVMD s vm).dirtyNodes s
    simp only [h, if_true]
    exact ⟨hc.1, by rw [hc.2]⟩
  · have hts : s.editor.textTransforms = [] :=
      List.length_eq_zero.mp (Nat.eq_zero_of_not_pos h)
    simp [h, hts, specTransformVisits_nil]

theorem triggerLoop_trace (L : ListenerFns) (ls : List ListenerId) (vm : VMId) :
    ∀ s : EngineState, (triggerLoop L ls vm s).2 = ls.map Event.listenerCall := by
  induction ls with
  | nil => intro s; rfl
  | cons l rest ih => intro s; simp [triggerLoop, ih]

theorem draftSetup_activeViewModel
    (csel : ViewModelData → EditorData → Option Selection) (cur : VMId)
    (s : EngineState) :
    (draftSetup csel cur s).1.activeViewModel = s.activeViewModel := by
  unfold draftSetup cloneViewModel allocVM
  cases h : s.activeViewModel <;> simp [h]

theorem draftSetup_activeReadyOnlyMode
    (csel : ViewModelData → EditorData → Option Selection) (cur : VMId)
    (s : EngineState) :
    (draftSetup csel cur s).1.activeReadyOnlyMode = s.activeReadyOnlyMode := by
  unfold draftSetup cloneViewModel allocVM
  cases h : s.activeViewModel <;> simp [h]

theorem draftSetup_editor
    (csel : ViewModelData → EditorData → Option Selection) (cur : VMId)
    (s : EngineState) :
    (draftSetup csel cur s).1.editor = s.editor := by
  unfold draftSetup cloneViewModel allocVM
  cases h : s.activeViewModel <;> simp [h]

theorem draftSetup_vm_of_none
    (csel : ViewModelData → EditorData → Option Selection) (cur : VMId)
    (s : EngineState) (h : s.activeViewModel = none) :
    (draftSetup csel cur s).2 = s.nextVMId := by
  unfold draftSetup cloneViewModel allocVM
  simp [h]

theorem draftSetup_vm_of_some
    (csel : ViewModelData → EditorData → Option Selection) (cur : VMId)
    (s : EngineState) (id : VMId) (h : s.activeViewModel = some id) :
    (draftSetup csel cur s).2 = id := by
  unfold draftSetup
  simp [h]

theorem draftSetup_nextVMId_of_none
    (csel : ViewModelData → EditorData → Option Selection) (cur : VMId)
    (s : EngineState) (h : s.activeViewModel = none) :
    (draftSetup csel cur s).1.nextVMId = s.nextVMId + 1 := by
  unfold draftSetup cloneViewModel allocVM
  simp [h]

theorem draftSetup_nextVMId_of_some
    (csel : ViewModelData → EditorData → Option Selection) (cur : VMId)
    (s : EngineState) (id : VMId) (h : s.activeViewModel = some id) :
    (draftSetup csel cur s).1.nextVMId = s.nextVMId := by
  unfold draftSetup
  simp [h]

theorem draftViewModel_ok_restores (T : TransformFns)
    (csel : ViewModelData → EditorData → Option Selection) (cb : Cb)
    (cur : VMId) (s : EngineState) (v : VMId)
    (h : (draftViewModel T csel cb cur s).2.2 = Except.ok v) :
    (draftViewModel T csel cb cur s).1.activeViewModel = s.activeViewModel ∧
      (draftViewModel T csel cb cur s).1.activeReadyOnlyMode =
        s.activeReadyOnlyMode := by
  unfold draftViewModel at h ⊢
  cases he : (callCallbackWithViewModelScope
      (draftWrapper T cb (draftSetup csel cur s).2) (draftSetup csel cur s).2
      false (draftSetup csel cur s).1).2.2 with
  | some e => simp [he] at h
  | none =>
    have hr := scope_ok_restores (draftWrapper T cb (draftSetup csel cur s).2)
      (draftSetup csel cur s).2 false (draftSetup csel cur s).1 he
    simp only [he]
    exact ⟨hr.1.trans (draftSetup_activeViewModel csel cur s),
      hr.2.trans (draftSetup_activeReadyOnlyMode csel cur s)⟩

theorem lookupVM_clone (s : EngineState) (current j : VMId) :
    lookupVM (cloneViewModel s current).1 j =
      if j = s.nextVMId
      then some { root := (getVMD s current).root,
                  nodeMap := (getVMD s current).nodeMap, selection := none,
                  dirtyNodes := [], dirtySubTrees := [], isHistoric := false }
      else lookupVM s j := by
  have hmap := alookup_map_if
    ((s.nextVMId, newViewModel (getVMD s current).root) :: s.vmHeap)
    s.nextVMId j
    (fun dd => { dd with nodeMap := (getVMD s current).nodeMap })
  have hL : lookupVM (cloneViewModel s current).1 j =
      alookup (((s.nextVMId, newViewModel (getVMD s current).root) ::
          s.vmHeap).map
        (fun p => if p.1 = s.nextVMId
          then (p.1,
            (fun dd => { dd with nodeMap := (getVMD s current).nodeMap }) p.2)
          else p)) j := rfl
  rw [hL, hmap]
  by_cases hj : j = s.nextVMId
  · simp [hj, alookup, newViewModel]
  · simp only [hj, if_false, alookup, lookupVM]
    rw [if_neg (fun hh : s.nextVMId = j => hj hh.symm)]

/-! ### The claims -/

/-- Claim C1: the spec demands that after `callCallbackWithViewModelScope`
returns or propagates a thrown error, `activeViewModel` and
`activeReadyOnlyMode` equal what they were before the call, even when the
callback throws.  The code has no try/finally, so a throwing callback leaves
the installed values behind: from a state with no active scope, installing
view model 0 in read-only mode around a throwing callback propagates the
error with `activeViewModel = some 0` and `activeReadyOnlyMode = true` still
installed — the claim's restoration fails on the throwing path. -/
theorem claim1_scope_not_restored_on_throw :
    (callCallbackWithViewModelScope (fun st => (st, [], some Err.userError))
        0 true sInit).2.2 = some Err.userError ∧
      sInit.activeViewModel = none ∧
      sInit.activeReadyOnlyMode = false ∧
      (callCallbackWithViewModelScope (fun st => (st, [], some Err.userError))
          0 true sInit).1.activeViewModel = some 0 ∧
      (callCallbackWithViewModelScope (fun st => (st, [], some Err.userError))
          0 true sInit).1.activeReadyOnlyMode = true :=
  ⟨rfl, rfl, rfl, rfl, rfl⟩

/-- Claim C7: with no active scope (`activeViewModel = null`),
`getActiveViewModel` throws `NoActiveScope` rather than returning a value;
so does a view helper built on it (`view.getRoot`); and after a
`draftViewModel` call from such a state completes normally, a subsequent
`getActiveViewModel` call (now again outside any callback) still throws. -/
theorem claim7_no_active_scope (s : EngineState)
    (h : s.activeViewModel = none) :
    getActiveViewModel s = Except.error Err.noActiveScope ∧
      viewGetRoot s = Except.error Err.noActiveScope ∧
      ∀ (T : TransformFns)
        (csel : ViewModelData → EditorData → Option Selection) (cb : Cb)
        (cur v : VMId),
        (draftViewModel T csel cb cur s).2.2 = Except.ok v →
        getActiveViewModel (draftViewModel T csel cb cur s).1 =
          Except.error Err.noActiveScope := by
  refine ⟨by simp [getActiveViewModel, h], by simp [viewGetRoot, getActiveViewModel, h], ?_⟩
  intro T csel cb cur v hok
  have hres := (draftViewModel_ok_restores T csel cb cur s v hok).1
  simp [getActiveViewModel, hres, h]

theorem claim7_no_active_scope_witness :
    getActiveViewModel sInit = Except.error Err.noActiveScope ∧
      viewGetRoot sInit = Except.error Err.noActiveScope ∧
      getActiveViewModel (draftViewModel T0 csel0 cb0 0 sInit).1 =
        Except.error Err.noActiveScope := by
  refine ⟨(claim7_no_active_scope sInit rfl).1,
    (claim7_no_active_scope sInit rfl).2.1,
    (claim7_no_active_scope sInit rfl).2.2 T0 csel0 cb0 0 0 ?_⟩
  rfl

/-- Claim C8: a mutation helper (one that calls `shouldErrorOnReadOnly`
first, as the spec requires of every node-mutating helper) invoked inside a
`readViewModel` scope fails with `ReadOnlyViolation` before its mutation `m`
takes any effect: the resulting state is exactly the scope-installed state —
independent of `m` — with the error propagated. -/
theorem claim8_read_only_violation (m : EngineState → EngineState) (vm : VMId)
    (s : EngineState) :
    readViewModel (mutationHelper m) vm s =
      ({ s with activeViewModel := some vm, activeReadyOnlyMode := true },
       [], some Err.readOnlyViolation) :=
  rfl

/-- Claim C10: when `updateViewModel` completes, the listener fan-out starts
from a state whose `activeViewModel` is restored to the pre-call value and
whose editor current-snapshot slot already holds the committed view model;
and the fan-out invokes exactly the listeners registered at that moment (the
fixed copy), in order, so listeners a listener registers are not invoked for
this commit. -/
theorem claim10_commit_notifier (rec : EngineState → EngineState)
    (L : ListenerFns) (vm : VMId) (s : EngineState) :
    ∃ s4 : EngineState,
      updateViewModel rec L vm s = triggerOnChange L vm s4 ∧
        s4.activeViewModel = s.activeViewModel ∧
        s4.editor.viewModel = vm ∧
        (triggerOnChange L vm s4).2 =
          s4.editor.updateListeners.map Event.listenerCall := by
  refine ⟨{ rec { s with activeViewModel := some vm } with
      activeViewModel := s.activeViewModel,
      editor := { (rec { s with activeViewModel := some vm }).editor with
        viewModel := vm } }, rfl, rfl, rfl, ?_⟩
  exact triggerLoop_trace L _ vm _

/-- Claim C9: `cloneViewModel` produces a fresh view model: a new id, the
same root, a shallow copy of `nodeMap` holding exactly the original
associations, empty dirty sets, no selection; the original is unchanged, and
mutating the clone's data (for example editing its map) leaves the
original's entry untouched. -/
theorem claim9_clone_fresh (s : EngineState) (current : VMId)
    (d : ViewModelData) (h : lookupVM s current = some d)
    (hne : current ≠ s.nextVMId) :
    (cloneViewModel s current).2 = s.nextVMId ∧
      (cloneViewModel s current).2 ≠ current ∧
      lookupVM (cloneViewModel s current).1 (cloneViewModel s current).2 =
        some { root := d.root, nodeMap := d.nodeMap, selection := none,
               dirtyNodes := [], dirtySubTrees := [], isHistoric := false } ∧
      lookupVM (cloneViewModel s current).1 current = some d ∧
      ∀ f : ViewModelData → ViewModelData,
        lookupVM (updVM (cloneViewModel s current).1
          (cloneViewModel s current).2 f) current = some d := by
  have hg : getVMD s current = d := by simp [getVMD, h]
  have hcur : lookupVM (cloneViewModel s current).1 current = some d := by
    rw [lookupVM_clone, if_neg hne, h]
  refine ⟨rfl, fun hh => hne hh.symm, ?_, hcur, ?_⟩
  · show lookupVM (cloneViewModel s current).1 s.nextVMId = _
    rw [lookupVM_clone, if_pos rfl, hg]
  · intro f
    have hid : (cloneViewModel s current).2 = s.nextVMId := rfl
    rw [lookupVM_updVM, hid, if_neg hne]
    exact hcur

theorem claim9_clone_fresh_witness :
    lookupVM sInit 0 = some (newViewModel 0) ∧ (0 : VMId) ≠ sInit.nextVMId ∧
      (cloneViewModel sInit 0).2 = sInit.nextVMId ∧
      lookupVM (cloneViewModel sInit 0).1 0 = some (newViewModel 0) ∧
      lookupVM (updVM (cloneViewModel sInit 0).1 (cloneViewModel sInit 0).2
        (fun dd => { dd with nodeMap := [("k", nA)] })) 0 =
        some (newViewModel 0) := by
  have hc := claim9_clone_fresh sInit 0 (newViewModel 0) rfl (by decide)
  exact ⟨rfl, by decide, hc.1, hc.2.2.2.1,
    hc.2.2.2.2 (fun dd => { dd with nodeMap := [("k", nA)] })⟩

/-- Claim C4: after `garbageCollectDetachedNodes`, every identifier that was
dirty at pass start, resolvable in `nodeMap` and unattached has no `nodeMap`
entry; every dirty attached node keeps its entry; and entries whose
identifiers are not dirty are untouched. -/
theorem claim4_collector_spec (s : EngineState) (vm : VMId)
    (d : ViewModelData) (h : lookupVM s vm = some d) :
    (∀ k n, k ∈ d.dirtyNodes → alookup d.nodeMap k = some n →
        n.attached = false →
        alookup (getVMD (garbageCollectDetachedNodes s vm).1 vm).nodeMap k =
          none) ∧
      (∀ k n, k ∈ d.dirtyNodes → alookup d.nodeMap k = some n →
        n.attached = true →
        alookup (getVMD (garbageCollectDetachedNodes s vm).1 vm).nodeMap k =
          some n) ∧
      (∀ k, k ∉ d.dirtyNodes →
        alookup (getVMD (garbageCollectDetachedNodes s vm).1 vm).nodeMap k =
          alookup d.nodeMap k) := by
  have hg : getVMD s vm = d := by simp [getVMD, h]
  have key : ∀ k,
      alookup (getVMD (garbageCollectDetachedNodes s vm).1 vm).nodeMap k =
        match alookup d.nodeMap k with
        | none => none
        | some n =>
          if k ∈ d.dirtyNodes ∧ n.attached = false then none else some n := by
    intro k
    calc alookup (getVMD (garbageCollectDetachedNodes s vm).1 vm).nodeMap k
        = match alookup (getVMD s vm).nodeMap k with
          | none => none
          | some n =>
            if k ∈ (getVMD s vm).dirtyNodes ∧ n.attached = false then none
            else some n := gcLoop_lookup_nodeMap (getVMD s vm).dirtyNodes vm s k
      _ = match alookup d.nodeMap k with
          | none => none
          | some n =>
            if k ∈ d.dirtyNodes ∧ n.attached = false then none
            else some n := by rw [hg]
  refine ⟨?_, ?_, ?_⟩
  · intro k n hk hn ha
    rw [key k, hn]
    simp [hk, ha]
  · intro k n hk hn ha
    rw [key k, hn]
    simp [ha]
  · intro k hk
    rw [key k]
    cases hn : alookup d.nodeMap k <;> simp [hk]

theorem claim4_collector_spec_witness :
    ("b" ∈ dGc.dirtyNodes ∧ alookup dGc.nodeMap "b" = some nB ∧
        nB.attached = false ∧ "a" ∈ dGc.dirtyNodes ∧
        alookup dGc.nodeMap "a" = some nA ∧ nA.attached = true ∧
        "c" ∉ dGc.dirtyNodes) ∧
      alookup (getVMD (garbageCollectDetachedNodes sGc 5).1 5).nodeMap "b" =
        none ∧
      alookup (getVMD (garbageCollectDetachedNodes sGc 5).1 5).nodeMap "a" =
        some nA ∧
      alookup (getVMD (garbageCollectDetachedNodes sGc 5).1 5).nodeMap "c" =
        alookup dGc.nodeMap "c" := by
  refine ⟨by decide, ?_, ?_, ?_⟩
  · exact (claim4_collector_spec sGc 5 dGc rfl).1 "b" nB (by decide) (by decide)
      (by decide)
  · exact (claim4_collector_spec sGc 5 dGc rfl).2.1 "a" nA (by decide)
      (by decide) (by decide)
  · exact (claim4_collector_spec sGc 5 dGc rfl).2.2 "c" (by decide)

/-- Claim C6: every transform invocation of one `applyTextTransforms` pass
names a transform from the registration sequence fixed at pass start and a
node identifier from the dirty sequence fixed at pass start (so dirtying or
registering during the pass cannot add visits); and for transforms that do
not change the state, the invocation trace is exactly: for each node of the
pass-start dirty sequence that is resolvable, attached and a text node, each
pass-start transform once, in registration order — detached and non-text
dirty nodes receive none. -/
theorem claim6_transform_pipeline (T : TransformFns) (s : EngineState)
    (vm : VMId) (d : ViewModelData) (h : lookupVM s vm = some d) :
    (∀ t k, Event.transformCall t k ∈ (applyTextTransforms T s vm).2 →
        t ∈ s.editor.textTransforms ∧ k ∈ d.dirtyNodes) ∧
      ((∀ t k st, T t k st = st) →
        (applyTextTransforms T s vm).2 =
          Event.transformsPass ::
            specTransformVisits s.editor.textTransforms d d.dirtyNodes) := by
  have hg : getVMD s vm = d := by simp [getVMD, h]
  constructor
  · intro t k hm
    rcases applyTextTransforms_trace_shape T s vm with ⟨tl, htr, hall⟩
    rw [htr] at hm
    rcases List.mem_cons.mp hm with h1 | h2
    · simp at h1
    · rcases hall _ h2 with ⟨t2, k2, heq, ht2, hk2⟩
      rw [hg] at hk2
      simp only [Event.transformCall.injEq] at heq
      rw [heq.1, heq.2]
      exact ⟨ht2, hk2⟩
  · intro hT
    have hc := (applyTextTransforms_const T hT s vm).2
    rw [hg] at hc
    exact hc

theorem claim6_transform_pipeline_witness :
    ((3 : TransformId) ∈ sTr.editor.textTransforms ∧ "a" ∈ dTr.dirtyNodes) ∧
      (applyTextTransforms T0 sTr 2).2 =
        Event.transformsPass ::
          specTransformVisits sTr.editor.textTransforms dTr dTr.dirtyNodes := by
  refine ⟨(claim6_transform_pipeline T0 sTr 2 dTr rfl).1 3 "a" (by decide), ?_⟩
  exact (claim6_transform_pipeline T0 sTr 2 dTr rfl).2 (fun t k st => rfl)

theorem selectionIsDirtyCheck_iff (a b : Option Selection) :
    selectionIsDirtyCheck a b = true ↔ specSelectionDirty a b := by
  rcases a with _ | ⟨da⟩
  · rcases b with _ | ⟨db⟩
    · simp [selectionIsDirtyCheck, specSelectionDirty]
    · simp [selectionIsDirtyCheck, specSelectionDirty]
  · rcases b with _ | ⟨db⟩
    · simp [selectionIsDirtyCheck, specSelectionDirty]
    · cases da
      all_goals simp [selectionIsDirtyCheck, specSelectionDirty]

/-- Claim C2: a successful `draftViewModel` run started outside any scope
returns the snapshot passed in as `currentViewModel` iff the draft has no
dirty node and its selection is not dirty relative to the current snapshot's
selection (as the claim defines dirtiness), and it returns the fork
(`s.nextVMId`, the freshly allocated draft) iff that condition holds.  The
editor's current view model is required to (still) be `cur`, matching the
claim's reading of "the current snapshot". -/
theorem claim2_acceptance (T : TransformFns)
    (csel : ViewModelData → EditorData → Option Selection) (cb : Cb)
    (cur : VMId) (s s2 : EngineState) (tr : Trace) (r : VMId)
    (h0 : s.activeViewModel = none) (hne : cur ≠ s.nextVMId)
    (hrun : draftViewModel T csel cb cur s = (s2, tr, Except.ok r))
    (hEd : s2.editor.viewModel = cur) :
    (r = cur ↔ ¬((getVMD s2 s.nextVMId).dirtyNodes ≠ [] ∨
        specSelectionDirty (getVMD s2 s.nextVMId).selection
          (getVMD s2 cur).selection)) ∧
      (r = s.nextVMId ↔ ((getVMD s2 s.nextVMId).dirtyNodes ≠ [] ∨
        specSelectionDirty (getVMD s2 s.nextVMId).selection
          (getVMD s2 cur).selection)) := by
  simp only [draftViewModel] at hrun
  rw [draftSetup_vm_of_none csel cur s h0] at hrun
  rcases hqe : callCallbackWithViewModelScope (draftWrapper T cb s.nextVMId)
      s.nextVMId false (draftSetup csel cur s).1 with ⟨q1, q2, qe⟩
  rw [hqe] at hrun
  cases qe with
  | some e => simp at hrun
  | none =>
    simp only [Prod.mk.injEq, Except.ok.injEq] at hrun
    obtain ⟨hs2, -, hr⟩ := hrun
    rw [hs2] at hr
    have hA : hasDirtyNodes s2 s.nextVMId = true ↔
        (getVMD s2 s.nextVMId).dirtyNodes ≠ [] := by
      simp [hasDirtyNodes, List.isEmpty_iff]
    have hB : viewModelHasDirtySelection s2 s.nextVMId = true ↔
        specSelectionDirty (getVMD s2 s.nextVMId).selection
          (getVMD s2 cur).selection := by
      unfold viewModelHasDirtySelection
      rw [hEd]
      exact selectionIsDirtyCheck_iff _ _
    by_cases hdp : hasDirtyNodes s2 s.nextVMId = true
    · rw [show (!hasDirtyNodes s2 s.nextVMId &&
          !viewModelHasDirtySelection s2 s.nextVMId) = false by simp [hdp]]
        at hr
      simp only [Bool.false_eq_true, if_false] at hr
      have hC : (getVMD s2 s.nextVMId).dirtyNodes ≠ [] ∨
          specSelectionDirty (getVMD s2 s.nextVMId).selection
            (getVMD s2 cur).selection := Or.inl (hA.mp hdp)
      exact ⟨iff_of_false (fun hrc => hne (hr.trans hrc).symm)
          (fun hh => hh hC),
        iff_of_true hr.symm hC⟩
    · by_cases hsp : viewModelHasDirtySelection s2 s.nextVMId = true
      · rw [show (!hasDirtyNodes s2 s.nextVMId &&
            !viewModelHasDirtySelection s2 s.nextVMId) = false by simp [hsp]]
          at hr
        simp only [Bool.false_eq_true, if_false] at hr
        have hC : (getVMD s2 s.nextVMId).dirtyNodes ≠ [] ∨
            specSelectionDirty (getVMD s2 s.nextVMId).selection
              (getVMD s2 cur).selection := Or.inr (hB.mp hsp)
        exact ⟨iff_of_false (fun hrc => hne (hr.trans hrc).symm)
            (fun hh => hh hC),
          iff_of_true hr.symm hC⟩
      · have hdp2 : hasDirtyNodes s2 s.nextVMId = false := by
          revert hdp; cases hasDirtyNodes s2 s.nextVMId <;> simp
        have hsp2 : viewModelHasDirtySelection s2 s.nextVMId = false := by
          revert hsp; cases viewModelHasDirtySelection s2 s.nextVMId <;> simp
        rw [show (!hasDirtyNodes s2 s.nextVMId &&
            !viewModelHasDirtySelection s2 s.nextVMId) = true by
          simp [hdp2, hsp2]] at hr
        simp only [if_true] at hr
        have hempty : (getVMD s2 s.nextVMId).dirtyNodes = [] := by
          simpa [hasDirtyNodes, List.isEmpty_iff] using hdp2
        have hnC : ¬((getVMD s2 s.nextVMId).dirtyNodes ≠ [] ∨
            specSelectionDirty (getVMD s2 s.nextVMId).selection
              (getVMD s2 cur).selection) := by
          rintro (hx | hx)
          · exact hx hempty
          · have hxb := hB.mpr hx
            rw [hxb] at hsp2
            cases hsp2
        exact ⟨iff_of_true hr.symm hnC,
          iff_of_false (fun hrn => hne (hr.trans hrn)) hnC⟩

theorem claim2_acceptance_witness :
    ((0 : VMId) = 0 ↔
        ¬((getVMD (draftViewModel T0 csel0 cb0 0 sInit).1
              sInit.nextVMId).dirtyNodes ≠ [] ∨
          specSelectionDirty
            (getVMD (draftViewModel T0 csel0 cb0 0 sInit).1
              sInit.nextVMId).selection
            (getVMD (draftViewModel T0 csel0 cb0 0 sInit).1 0).selection)) ∧
      ((0 : VMId) = sInit.nextVMId ↔
        ((getVMD (draftViewModel T0 csel0 cb0 0 sInit).1
              sInit.nextVMId).dirtyNodes ≠ [] ∨
          specSelectionDirty
            (getVMD (draftViewModel T0 csel0 cb0 0 sInit).1
              sInit.nextVMId).selection
            (getVMD (draftViewModel T0 csel0 cb0 0 sInit).1 0).selection)) :=
  claim2_acceptance T0 csel0 cb0 0 sInit
    (draftViewModel T0 csel0 cb0 0 sInit).1
    (draftViewModel T0 csel0 cb0 0 sInit).2.1 0
    rfl (by decide) rfl rfl

theorem scope_err (cb : Cb) (vm : VMId) (ro : Bool) (s : EngineState) :
    (callCallbackWithViewModelScope cb vm ro s).2.2 =
      (cb { s with activeViewModel := some vm,
                   activeReadyOnlyMode := ro }).2.2 := by
  simp only [callCallbackWithViewModelScope]
  cases he : (cb { s with activeViewModel := some vm,
                          activeReadyOnlyMode := ro }).2.2
  · simp [he]
  · simp [he]

theorem wrapper_scope_trace (T : TransformFns) (cb : Cb) (p2 : VMId)
    (p1 c1 : EngineState) (ctr : Trace)
    (hcb : cb { p1 with
        activeViewModel := some p2, activeReadyOnlyMode := false } = (c1, ctr, none)) :
    ∃ tcalls, (∀ e ∈ tcalls, ∃ t k, e = Event.transformCall t k) ∧
      (callCallbackWithViewModelScope (draftWrapper T cb p2) p2 false p1).2.1 =
        ctr ++ (if hasDirtyNodes c1 p2
          then Event.transformsPass :: (tcalls ++ [Event.gcPass]) else []) ∧
      (callCallbackWithViewModelScope (draftWrapper T cb p2) p2 false
        p1).2.2 = none := by
  by_cases hd : hasDirtyNodes c1 p2 = true
  · rcases applyTextTransforms_trace_shape T c1 p2 with ⟨tl, hshape, hall⟩
    have hwrap : draftWrapper T cb p2 { p1 with
        activeViewModel := some p2, activeReadyOnlyMode := false } =
        ((garbageCollectDetachedNodes (applyTextTransforms T c1 p2).1 p2).1,
         ctr ++ ((applyTextTransforms T c1 p2).2 ++ [Event.gcPass]), none) := by
      simp only [draftWrapper, hcb, hd, if_true, garbageCollectDetachedNodes]
    refine ⟨tl, ?_, ?_, ?_⟩
    · intro e he
      obtain ⟨t, k, h1, -, -⟩ := hall e he
      exact ⟨t, k, h1⟩
    · rw [scope_trace, hwrap, hshape]
      simp [hd]
    · rw [scope_err, hwrap]
  · have hwrap : draftWrapper T cb p2 { p1 with
        activeViewModel := some p2, activeReadyOnlyMode := false } = (c1, ctr, none) := by
      simp only [draftWrapper, hcb, hd]
      simp
    refine ⟨[], by simp, ?_, ?_⟩
    · rw [scope_trace, hwrap]
      simp [hd]
    · rw [scope_err, hwrap]

/-- Claim C3: in a `draftViewModel` transaction whose mutation callback
returns normally, the events this transaction emits after the callback's own
trace are: when the draft has dirty nodes after the callback, exactly one
transform pass, then exactly one collector pass, then the acceptance check;
when it has none, the acceptance check alone — neither pass runs. -/
theorem claim3_passes_once_in_order (T : TransformFns)
    (csel : ViewModelData → EditorData → Option Selection) (cb : Cb)
    (cur : VMId) (s : EngineState)
    (hok : (cb { (draftSetup csel cur s).1 with
        activeViewModel := some (draftSetup csel cur s).2, activeReadyOnlyMode := false }).2.2 = none) :
    ∃ tcalls, (∀ e ∈ tcalls, ∃ t k, e = Event.transformCall t k) ∧
      (draftViewModel T csel cb cur s).2.1 =
        (cb { (draftSetup csel cur s).1 with
            activeViewModel := some (draftSetup csel cur s).2, activeReadyOnlyMode := false }).2.1 ++
          ((if hasDirtyNodes (cb { (draftSetup csel cur s).1 with
                activeViewModel := some (draftSetup csel cur s).2, activeReadyOnlyMode := false }).1 (draftSetup csel cur s).2
            then Event.transformsPass :: (tcalls ++ [Event.gcPass])
            else []) ++ [Event.acceptance]) := by
  have hcb : cb { (draftSetup csel cur s).1 with
      activeViewModel := some (draftSetup csel cur s).2,
      activeReadyOnlyMode := false } =
      ((cb { (draftSetup csel cur s).1 with
          activeViewModel := some (draftSetup csel cur s).2, activeReadyOnlyMode := false }).1,
       (cb { (draftSetup csel cur s).1 with
          activeViewModel := some (draftSetup csel cur s).2, activeReadyOnlyMode := false }).2.1, none) := by
    rw [← hok]
  obtain ⟨tl, hall, htr, herr⟩ := wrapper_scope_trace T cb
    (draftSetup csel cur s).2 (draftSetup csel cur s).1 _ _ hcb
  refine ⟨tl, hall, ?_⟩
  have hdr : (draftViewModel T csel cb cur s).2.1 =
      (callCallbackWithViewModelScope (draftWrapper T cb
        (draftSetup csel cur s).2) (draftSetup csel cur s).2 false
        (draftSetup csel cur s).1).2.1 ++ [Event.acceptance] := by
    simp only [draftViewModel]
    cases he : (callCallbackWithViewModelScope (draftWrapper T cb
        (draftSetup csel cur s).2) (draftSetup csel cur s).2 false
        (draftSetup csel cur s).1).2.2 with
    | some e => rw [he] at herr; cases herr
    | none => simp [he]
  rw [hdr, htr]
  simp [List.append_assoc]

theorem claim3_passes_once_in_order_witness :
    ∃ tcalls, (∀ e ∈ tcalls, ∃ t k, e = Event.transformCall t k) ∧
      (draftViewModel T0 csel0 cb0 0 sInit).2.1 =
        (cb0 { (draftSetup csel0 0 sInit).1 with
            activeViewModel := some (draftSetup csel0 0 sInit).2, activeReadyOnlyMode := false }).2.1 ++
          ((if hasDirtyNodes (cb0 { (draftSetup csel0 0 sInit).1 with
                activeViewModel := some (draftSetup csel0 0 sInit).2, activeReadyOnlyMode := false }).1 (draftSetup csel0 0 sInit).2
            then Event.transformsPass :: (tcalls ++ [Event.gcPass])
            else []) ++ [Event.acceptance]) :=
  claim3_passes_once_in_order T0 csel0 cb0 0 sInit rfl

set_option maxHeartbeats 2000000 in
/-- Claim C5: a mutation callback that itself calls `draftViewModel` reuses
the in-flight draft instead of forking: from the baseline state, the outer
transaction returns the single accepted draft (id 1, the only fork —
`nextVMId` advanced exactly once, to 2), and that draft's dirty-node set is
the union `[a, b]` of the nodes dirtied by the outer and the inner
callbacks. -/
theorem claim5_reentrant_accumulation (T : TransformFns)
    (csel : ViewModelData → EditorData → Option Selection) (a b : NodeKey)
    (hab : a ≠ b) :
    (draftViewModel T csel (cbOuter T csel a b) 0 sInit).2.2 =
        Except.ok 1 ∧
      (getVMD (draftViewModel T csel (cbOuter T csel a b) 0 sInit).1
        1).dirtyNodes = [a, b] ∧
      (draftViewModel T csel (cbOuter T csel a b) 0 sInit).1.nextVMId = 2 := by
  have hba : ¬b = a := fun hh => hab hh.symm
  refine ⟨?_, ?_, ?_⟩ <;>
    simp [draftViewModel, draftSetup, cloneViewModel, allocVM, draftWrapper,
      callCallbackWithViewModelScope, cbOuter, cbInner, markDirty, updVM,
      getVMD, lookupVM, alookup, sInit, newViewModel, hasDirtyNodes,
      applyTextTransforms, garbageCollectDetachedNodes, gcLoop, gcStep,
      viewModelHasDirtySelection, selectionIsDirtyCheck, hba, hab]

theorem claim5_reentrant_accumulation_witness :
    ("a" : NodeKey) ≠ "b" ∧
      ((draftViewModel T0 csel0 (cbOuter T0 csel0 "a" "b") 0 sInit).2.2 =
          Except.ok 1 ∧
        (getVMD (draftViewModel T0 csel0 (cbOuter T0 csel0 "a" "b") 0
          sInit).1 1).dirtyNodes = ["a", "b"] ∧
        (draftViewModel T0 csel0 (cbOuter T0 csel0 "a" "b") 0
          sInit).1.nextVMId = 2) :=
  ⟨by decide, claim5_reentrant_accumulation T0 csel0 "a" "b" (by decide)⟩
